import Mathlib

/-!
Verification of the nbt_py NBT codec and tree-query layer.

This file gives a shallow embedding of the canonical core of the
repository (src/nbt_py/core.py, nbtio.py, filter.py, util.py) and settles
the frozen claims about it.

Modelling conventions:
* A byte stream is a `List Nat` (each element a byte value 0..255 on
  well-formed inputs).  Python's `file.read(n)` returns *up to* `n` bytes
  (fewer at end of stream); this is modelled by `List.take`/`List.drop`.
* Python exceptions raised while decoding or encoding are modelled by
  `Option.none` results.
* Python `str` values are modelled as lists of Unicode code points
  (`List Nat`); `bytes.decode('utf-8')` / `str.encode('utf-8')` are
  modelled by a strict UTF-8 decoder/encoder over byte lists.
* Python floats coming from `struct.unpack('>f')` / `('>d')` are modelled
  by the big-endian integer value of their IEEE-754 bit pattern
  (`PyVal.f32` / `PyVal.f64`); the matching `struct.pack` call is modelled
  as emitting those bytes again (float32 -> float64 -> float32 widening
  and narrowing is exact, so unpack-then-pack is the identity on the bit
  pattern).
* Python object identity for the `parent` back-reference is modelled by
  the tree path (list of child indices) of the parent node.
* General recursion (the `while` loops and recursive descent of the
  codec) is modelled with an explicit fuel parameter; every claim either
  quantifies over the fuel or uses a concrete sufficient fuel.
-/

namespace NbtPy

/-- The tag-kind enumeration of core.py (`TagTypes`), wire values 0..12. -/
inductive TagTypes : Type where
  | TAG_End
  | TAG_Byte
  | TAG_Short
  | TAG_Int
  | TAG_Long
  | TAG_Float
  | TAG_Double
  | TAG_Byte_Array
  | TAG_String
  | TAG_List
  | TAG_Compound
  | TAG_Int_Array
  | TAG_Long_Array
deriving DecidableEq, Repr

/-- The wire ordinal of a tag kind (the `.value` of the Python enum). -/
def TagTypes.value : TagTypes → Nat
  | .TAG_End => 0
  | .TAG_Byte => 1
  | .TAG_Short => 2
  | .TAG_Int => 3
  | .TAG_Long => 4
  | .TAG_Float => 5
  | .TAG_Double => 6
  | .TAG_Byte_Array => 7
  | .TAG_String => 8
  | .TAG_List => 9
  | .TAG_Compound => 10
  | .TAG_Int_Array => 11
  | .TAG_Long_Array => 12

/-- `TagTypes(v)` in Python: the enum member for a wire ordinal, or an
exception (`none`) for an unknown ordinal. -/
def TagTypes.ofInt (v : Int) : Option TagTypes :=
  if v = 0 then Option.some .TAG_End
  else if v = 1 then Option.some .TAG_Byte
  else if v = 2 then Option.some .TAG_Short
  else if v = 3 then Option.some .TAG_Int
  else if v = 4 then Option.some .TAG_Long
  else if v = 5 then Option.some .TAG_Float
  else if v = 6 then Option.some .TAG_Double
  else if v = 7 then Option.some .TAG_Byte_Array
  else if v = 8 then Option.some .TAG_String
  else if v = 9 then Option.some .TAG_List
  else if v = 10 then Option.some .TAG_Compound
  else if v = 11 then Option.some .TAG_Int_Array
  else if v = 12 then Option.some .TAG_Long_Array
  else Option.none

/-- core.py `TAG_TYPE_BYTE_LENGTHS`: fixed byte widths; `-1` is the End
sentinel, `0` marks variable-length kinds. -/
def TAG_TYPE_BYTE_LENGTHS : TagTypes → Int
  | .TAG_End => -1
  | .TAG_Byte => 1
  | .TAG_Short => 2
  | .TAG_Int => 4
  | .TAG_Long => 8
  | .TAG_Float => 4
  | .TAG_Double => 8
  | .TAG_Byte_Array => 0
  | .TAG_String => 0
  | .TAG_List => 0
  | .TAG_Compound => 0
  | .TAG_Int_Array => 0
  | .TAG_Long_Array => 0

/-- core.py `INTEGER_TYPES` membership. -/
def isIntegerType : TagTypes → Bool
  | .TAG_Byte => true
  | .TAG_Short => true
  | .TAG_Int => true
  | .TAG_Long => true
  | _ => false

/-- core.py `LIST_TYPES` membership. -/
def isListType : TagTypes → Bool
  | .TAG_List => true
  | .TAG_Int_Array => true
  | .TAG_Long_Array => true
  | _ => false

/-- A byte stream (contents still unread, in order). -/
abbrev Stream := List Nat

/-- Big-endian unsigned value of a byte list (`int.from_bytes(_, 'big')`). -/
def bytesToNat (bs : List Nat) : Nat :=
  bs.foldl (fun acc b => acc * 256 + b) 0

/-- Big-endian two's-complement signed value of a byte list
(`int.from_bytes(_, 'big', signed=True)`); the empty list gives 0. -/
def intFromBytesSigned (bs : List Nat) : Int :=
  let u := bytesToNat bs
  if 2 * u ≥ 256 ^ bs.length then (u : Int) - ((256 ^ bs.length : Nat) : Int)
  else (u : Int)

/-- nbtio.py `__read_nbt_int` (always called with `signed=True`): read up
to `byteLength` bytes and convert whatever was read — a short read at end
of stream is NOT detected (Python `file.read` just returns fewer bytes and
`int.from_bytes` accepts any length). -/
def readNbtInt (byteLength : Nat) (s : Stream) : Int × Stream :=
  (intFromBytesSigned (s.take byteLength), s.drop byteLength)

/-- Strict UTF-8 byte validity helper: a continuation byte. -/
def isContByte (b : Nat) : Bool := 128 ≤ b && b < 192

/-- `bytes.decode('utf-8')`: strict UTF-8 decoding of a byte list into
code points; `none` models `UnicodeDecodeError` (invalid sequences,
overlong forms, surrogates and out-of-range values are rejected, as in
CPython). -/
def utf8Decode : List Nat → Option (List Nat)
  | [] => Option.some []
  | b :: rest =>
    if b < 128 then
      match utf8Decode rest with
      | Option.some cs => Option.some (b :: cs)
      | Option.none => Option.none
    else if 194 ≤ b && b ≤ 223 then
      match rest with
      | b1 :: rest1 =>
        if isContByte b1 then
          match utf8Decode rest1 with
          | Option.some cs => Option.some (((b - 192) * 64 + (b1 - 128)) :: cs)
          | Option.none => Option.none
        else Option.none
      | [] => Option.none
    else if 224 ≤ b && b ≤ 239 then
      match rest with
      | b1 :: b2 :: rest2 =>
        if isContByte b1 && isContByte b2 then
          let cp := (b - 224) * 4096 + (b1 - 128) * 64 + (b2 - 128)
          if cp < 2048 then Option.none
          else if 55296 ≤ cp && cp < 57344 then Option.none
          else
            match utf8Decode rest2 with
            | Option.some cs => Option.some (cp :: cs)
            | Option.none => Option.none
        else Option.none
      | _ => Option.none
    else if 240 ≤ b && b ≤ 244 then
      match rest with
      | b1 :: b2 :: b3 :: rest3 =>
        if isContByte b1 && isContByte b2 && isContByte b3 then
          let cp := (b - 240) * 262144 + (b1 - 128) * 4096 + (b2 - 128) * 64 + (b3 - 128)
          if cp < 65536 then Option.none
          else if cp > 1114111 then Option.none
          else
            match utf8Decode rest3 with
            | Option.some cs => Option.some (cp :: cs)
            | Option.none => Option.none
        else Option.none
      | _ => Option.none
    else Option.none

/-- `str.encode('utf-8')`: UTF-8 encoding of a list of code points. -/
def utf8Encode : List Nat → List Nat
  | [] => []
  | c :: rest =>
    (if c < 128 then [c]
     else if c < 2048 then [192 + c / 64, 128 + c % 64]
     else if c < 65536 then [224 + c / 4096, 128 + c / 64 % 64, 128 + c % 64]
     else [240 + c / 262144, 128 + c / 4096 % 64, 128 + c / 64 % 64, 128 + c % 64])
    ++ utf8Encode rest

/-- nbtio.py `__read_nbt_string`: a 2-byte big-endian unsigned length
prefix (`struct.unpack('>H')`, which raises — `none` — on a short read),
then that many bytes of UTF-8 content; length 0 returns `EMPTY_NAME`
(Python `None`, modelled as `Option.none` in the result's first
component). -/
def readNbtString (s : Stream) : Option (Option (List Nat) × Stream) :=
  let data := s.take 2
  if data.length < 2 then Option.none
  else
    let len := bytesToNat data
    let s1 := s.drop 2
    if len = 0 then Option.some (Option.none, s1)
    else
      let raw := s1.take len
      if raw.length < len then Option.none
      else
        match utf8Decode raw with
        | Option.none => Option.none
        | Option.some cps => Option.some (Option.some cps, s1.drop len)

mutual
/-- One NBT node (core.py `NBTTag`): kind, name (`None` ⇒ `Option.none`),
payload, parent back-reference (modelled as the tree path of the parent
object, `None` ⇒ `Option.none`) and the `list_type` attribute. -/
inductive NBTTag : Type where
  | mk (type : TagTypes) (name : Option (List Nat)) (payload : PyVal)
       (parent : Option (List Nat)) (list_type : Option TagTypes) : NBTTag

/-- The dynamically-typed Python payload values the codec produces. -/
inductive PyVal : Type where
  | pyNone : PyVal
  | int (v : Int) : PyVal
  | f32 (bits : Nat) : PyVal
  | f64 (bits : Nat) : PyVal
  | str (cps : List Nat) : PyVal
  | list (items : List PyVal) : PyVal
  | tags (children : List NBTTag) : PyVal
end

def NBTTag.type : NBTTag → TagTypes
  | .mk ty _ _ _ _ => ty

def NBTTag.name : NBTTag → Option (List Nat)
  | .mk _ n _ _ _ => n

def NBTTag.payload : NBTTag → PyVal
  | .mk _ _ pl _ _ => pl

def NBTTag.parent : NBTTag → Option (List Nat)
  | .mk _ _ _ pa _ => pa

def NBTTag.list_type : NBTTag → Option TagTypes
  | .mk _ _ _ _ lt => lt

/-- `child.parent = result` in `__parse_tag_content`: overwrite the parent
back-reference of a node. -/
def setParent (v : Option (List Nat)) : NBTTag → NBTTag
  | .mk ty n pl _ lt => .mk ty n pl v lt

mutual
/-- nbtio.py `_read_tag`: read the kind byte (`none` on an unknown
ordinal, Python `ValueError` from `TagTypes(...)`), then parse the tag
content.  `path` is the tree path at which the parsed node will live
(ghost data mirroring Python object identity). -/
def readTag : Nat → List Nat → Stream → Option (NBTTag × Stream)
  | 0, _, _ => Option.none
  | fuel+1, path, s =>
    let r := readNbtInt 1 s
    match TagTypes.ofInt r.1 with
    | Option.none => Option.none
    | Option.some tt => parseTagContent fuel path tt r.2

/-- nbtio.py `__parse_tag_content`: an End tag carries no name and no
payload; otherwise read the name, then the payload; `list_type` is set
only for `TAG_List`; for a compound, set every child's parent
back-reference to this node. -/
def parseTagContent : Nat → List Nat → TagTypes → Stream → Option (NBTTag × Stream)
  | 0, _, _, _ => Option.none
  | fuel+1, path, tt, s =>
    if tt = TagTypes.TAG_End then
      Option.some (NBTTag.mk TagTypes.TAG_End Option.none PyVal.pyNone Option.none Option.none, s)
    else
      match readNbtString s with
      | Option.none => Option.none
      | Option.some (name, s1) =>
        match readTagPayload fuel path tt s1 with
        | Option.none => Option.none
        | Option.some (payload, listType, s2) =>
          let lt := if tt = TagTypes.TAG_List then listType else Option.none
          if tt = TagTypes.TAG_Compound then
            match payload with
            | PyVal.tags cs =>
              Option.some
                (NBTTag.mk tt name (PyVal.tags (cs.map (setParent (Option.some path))))
                  Option.none lt, s2)
            | _ => Option.none
          else
            Option.some (NBTTag.mk tt name payload Option.none lt, s2)

/-- nbtio.py `__read_tag_payload`, following the source's dispatch order.
Notable faithful details: `TAG_End` raises (`none`); integers accept
short reads silently (via `readNbtInt`); `struct.unpack('>f')`/`('>d')`
raise on short reads; the ByteArray branch is `data, = file.read(size)`,
a tuple unpacking that succeeds only when exactly one byte results (and a
negative size makes Python `read` return the whole rest of the stream);
a List member kind of End returns an empty list (and `None` member type)
after the count was read. -/
def readTagPayload : Nat → List Nat → TagTypes → Stream → Option (PyVal × Option TagTypes × Stream)
  | 0, _, _, _ => Option.none
  | fuel+1, path, tt, s =>
    if tt = TagTypes.TAG_End then Option.none
    else if isIntegerType tt then
      let r := readNbtInt (TAG_TYPE_BYTE_LENGTHS tt).toNat s
      Option.some (PyVal.int r.1, Option.none, r.2)
    else if tt = TagTypes.TAG_Float then
      let data := s.take 4
      if data.length < 4 then Option.none
      else Option.some (PyVal.f32 (bytesToNat data), Option.none, s.drop 4)
    else if tt = TagTypes.TAG_Double then
      let data := s.take 8
      if data.length < 8 then Option.none
      else Option.some (PyVal.f64 (bytesToNat data), Option.none, s.drop 8)
    else if tt = TagTypes.TAG_Byte_Array then
      let r := readNbtInt 4 s
      let raw := if r.1 < 0 then r.2 else r.2.take r.1.toNat
      let s2 := if r.1 < 0 then ([] : Stream) else r.2.drop r.1.toNat
      match raw with
      | [b] => Option.some (PyVal.int (Int.ofNat b), Option.none, s2)
      | _ => Option.none
    else if tt = TagTypes.TAG_String then
      match readNbtString s with
      | Option.none => Option.none
      | Option.some (v, s1) =>
        match v with
        | Option.none => Option.some (PyVal.pyNone, Option.none, s1)
        | Option.some cps => Option.some (PyVal.str cps, Option.none, s1)
    else if isListType tt then
      let mtRead : Option (TagTypes × Stream) :=
        if tt = TagTypes.TAG_List then
          let r := readNbtInt 1 s
          match TagTypes.ofInt r.1 with
          | Option.none => Option.none
          | Option.some mt => Option.some (mt, r.2)
        else if tt = TagTypes.TAG_Int_Array then Option.some (TagTypes.TAG_Int, s)
        else Option.some (TagTypes.TAG_Long, s)
      match mtRead with
      | Option.none => Option.none
      | Option.some (mt, s1) =>
        let r := readNbtInt 4 s1
        if mt = TagTypes.TAG_End then Option.some (PyVal.list [], Option.none, r.2)
        else
          match readListItems fuel path mt 0 r.1.toNat r.2 with
          | Option.none => Option.none
          | Option.some (items, s2) => Option.some (PyVal.list items, Option.some mt, s2)
    else
      match readCompoundChildren fuel path 0 s with
      | Option.none => Option.none
      | Option.some (cs, s1) => Option.some (PyVal.tags cs, Option.none, s1)

/-- The `for i in range(list_length)` loop of the list branch: read `n`
payload-only members (a negative Python length gives an empty range, so
callers pass `Int.toNat` of the count).  `i` is the ghost member index
used to extend the tree path. -/
def readListItems : Nat → List Nat → TagTypes → Nat → Nat → Stream → Option (List PyVal × Stream)
  | 0, _, _, _, _, _ => Option.none
  | _+1, _, _, _, 0, s => Option.some ([], s)
  | fuel+1, path, mt, i, n+1, s =>
    match readTagPayload fuel (path ++ [i]) mt s with
    | Option.none => Option.none
    | Option.some (v, _, s1) =>
      match readListItems fuel path mt (i+1) n s1 with
      | Option.none => Option.none
      | Option.some (vs, s2) => Option.some (v :: vs, s2)

/-- The `while get_next` loop of the compound branch: read full tags until
one of kind End arrives (the End node is discarded).  `k` is the ghost
index of the next child. -/
def readCompoundChildren : Nat → List Nat → Nat → Stream → Option (List NBTTag × Stream)
  | 0, _, _, _ => Option.none
  | fuel+1, path, k, s =>
    match readTag fuel (path ++ [k]) s with
    | Option.none => Option.none
    | Option.some (child, s1) =>
      if child.type = TagTypes.TAG_End then Option.some ([], s1)
      else
        match readCompoundChildren fuel path (k+1) s1 with
        | Option.none => Option.none
        | Option.some (cs, s2) => Option.some (child :: cs, s2)
end

/-- Big-endian byte list of length `n` for a natural number (the digits
of `v` mod `256^n`). -/
def natToBytes : Nat → Nat → List Nat
  | 0, _ => []
  | n+1, v => natToBytes n (v / 256) ++ [v % 256]

/-- nbtio.py `__write_nbt_int` with the default `signed=True`:
`value.to_bytes(byte_length, 'big', signed=True)`; out-of-range values
raise `OverflowError` (`none`). -/
def writeNbtInt (value : Int) (byteLength : Nat) : Option (List Nat) :=
  if -((2 : Int) ^ (8 * byteLength - 1)) ≤ value ∧ value < (2 : Int) ^ (8 * byteLength - 1) then
    Option.some (natToBytes byteLength (value % ((2 : Int) ^ (8 * byteLength))).toNat)
  else Option.none

/-- `struct.pack('>{n}s', bs)`: truncate or zero-pad `bs` to exactly `n`
bytes. -/
def pyPackBytes (n : Nat) (bs : List Nat) : List Nat :=
  if n ≤ bs.length then bs.take n else bs ++ List.replicate (n - bs.length) 0

/-- nbtio.py `__write_nbt_string`: `length = len(str) if str else 0` (the
CODE POINT count of the Python string, not its UTF-8 byte count), write
the 2-byte length, then — when nonzero — `struct.pack('>{length}s',
str.encode('utf-8'))`, which truncates or pads the UTF-8 bytes to
`length` bytes. -/
def writeNbtString (name : Option (List Nat)) : Option (List Nat) :=
  let length := match name with
                | Option.some cps => cps.length
                | Option.none => 0
  match writeNbtInt (Int.ofNat length) 2 with
  | Option.none => Option.none
  | Option.some lenBytes =>
    if length = 0 then Option.some lenBytes
    else
      match name with
      | Option.some cps => Option.some (lenBytes ++ pyPackBytes length (utf8Encode cps))
      | Option.none => Option.some lenBytes

/-- The per-element write of the ByteArray branch:
`value.to_bytes(1, 'big', signed=True)` for each payload item; a non-int
item or an out-of-range value raises (`none`). -/
def writeByteItems : List PyVal → Option (List Nat)
  | [] => Option.some []
  | PyVal.int v :: rest =>
    if -128 ≤ v ∧ v < 128 then
      match writeByteItems rest with
      | Option.none => Option.none
      | Option.some bs => Option.some ((v % 256).toNat :: bs)
    else Option.none
  | _ => Option.none

mutual
/-- nbtio.py `_write_tag`: kind byte, then the name — ALWAYS, even for an
End tag — then the payload. -/
def writeTag : Nat → NBTTag → Option (List Nat)
  | 0, _ => Option.none
  | fuel+1, t =>
    match writeNbtInt (Int.ofNat t.type.value) 1 with
    | Option.none => Option.none
    | Option.some kindBytes =>
      match writeNbtString t.name with
      | Option.none => Option.none
      | Option.some nameBytes =>
        match writeTagPayload fuel t with
        | Option.none => Option.none
        | Option.some payloadBytes => Option.some (kindBytes ++ nameBytes ++ payloadBytes)

/-- nbtio.py `__write_tag_payload`, following the source's dispatch order.
Notable faithful details: a `TAG_List` whose `list_type` is `None` writes
the single End member-kind byte and RETURNS — no count is written; list
members are wrapped in `NBTTag.create(list_tag_type, None, item)` (whose
`list_type` attribute is `None`) and written payload-only; a compound
writes each child as a full tag and then a full `_write_tag` of an End
tag; `TAG_End` itself falls through every branch and writes nothing.
Payloads of the wrong dynamic type raise (`none`). -/
def writeTagPayload : Nat → NBTTag → Option (List Nat)
  | 0, _ => Option.none
  | fuel+1, t =>
    let ty := t.type
    let pl := t.payload
    if isIntegerType ty then
      match pl with
      | PyVal.int v => writeNbtInt v (TAG_TYPE_BYTE_LENGTHS ty).toNat
      | _ => Option.none
    else if ty = TagTypes.TAG_Float then
      match pl with
      | PyVal.f32 bits => Option.some (natToBytes 4 bits)
      | _ => Option.none
    else if ty = TagTypes.TAG_Double then
      match pl with
      | PyVal.f64 bits => Option.some (natToBytes 8 bits)
      | _ => Option.none
    else if ty = TagTypes.TAG_Byte_Array then
      match pl with
      | PyVal.list items =>
        match writeNbtInt (Int.ofNat items.length) 4 with
        | Option.none => Option.none
        | Option.some lenBytes =>
          match writeByteItems items with
          | Option.none => Option.none
          | Option.some bs => Option.some (lenBytes ++ bs)
      | _ => Option.none
    else if ty = TagTypes.TAG_String then
      match pl with
      | PyVal.pyNone => writeNbtString Option.none
      | PyVal.str cps => writeNbtString (Option.some cps)
      | _ => Option.none
    else if isListType ty then
      if ty = TagTypes.TAG_List then
        match t.list_type with
        | Option.none => writeNbtInt 0 1
        | Option.some mt =>
          match writeNbtInt (Int.ofNat mt.value) 1 with
          | Option.none => Option.none
          | Option.some mtBytes =>
            match pl with
            | PyVal.list items =>
              match writeNbtInt (Int.ofNat items.length) 4 with
              | Option.none => Option.none
              | Option.some cntBytes =>
                match writeListItems fuel mt items with
                | Option.none => Option.none
                | Option.some bs => Option.some (mtBytes ++ cntBytes ++ bs)
            | _ => Option.none
      else
        let mt := if ty = TagTypes.TAG_Int_Array then TagTypes.TAG_Int else TagTypes.TAG_Long
        match pl with
        | PyVal.list items =>
          match writeNbtInt (Int.ofNat items.length) 4 with
          | Option.none => Option.none
          | Option.some cntBytes =>
            match writeListItems fuel mt items with
            | Option.none => Option.none
            | Option.some bs => Option.some (cntBytes ++ bs)
        | _ => Option.none
    else if ty = TagTypes.TAG_Compound then
      match pl with
      | PyVal.tags cs =>
        match writeChildTags fuel cs with
        | Option.none => Option.none
        | Option.some bs =>
          match writeTag fuel (NBTTag.mk TagTypes.TAG_End Option.none PyVal.pyNone
                                Option.none Option.none) with
          | Option.none => Option.none
          | Option.some endBytes => Option.some (bs ++ endBytes)
      | _ => Option.none
    else
      Option.some []

/-- The `for item in payload` loop of the list branch: write each member
payload-only, wrapped in a fresh anonymous tag of the member kind. -/
def writeListItems : Nat → TagTypes → List PyVal → Option (List Nat)
  | 0, _, _ => Option.none
  | _+1, _, [] => Option.some []
  | fuel+1, mt, it :: rest =>
    match writeTagPayload fuel (NBTTag.mk mt Option.none it Option.none Option.none) with
    | Option.none => Option.none
    | Option.some b =>
      match writeListItems fuel mt rest with
      | Option.none => Option.none
      | Option.some bs => Option.some (b ++ bs)

/-- The `for child in payload` loop of the compound branch: write each
child as a full tag, in stored order. -/
def writeChildTags : Nat → List NBTTag → Option (List Nat)
  | 0, _ => Option.none
  | _+1, [] => Option.some []
  | fuel+1, c :: rest =>
    match writeTag fuel c with
    | Option.none => Option.none
    | Option.some b =>
      match writeChildTags fuel rest with
      | Option.none => Option.none
      | Option.some bs => Option.some (b ++ bs)
end

mutual
/-- The parent-link invariant of a parsed tree at path `p`: every child of
every Compound node carries `parent = some` (the path of) that node, at
every depth, including compounds nested inside list payloads. -/
def parentsOkTag : List Nat → NBTTag → Bool
  | p, NBTTag.mk ty _ pl _ _ =>
    match ty, pl with
    | TagTypes.TAG_Compound, PyVal.tags cs => compChildrenOk p 0 cs
    | _, PyVal.list items => listItemsOk p 0 items
    | _, _ => true

/-- Children of the Compound node at path `p` (starting at child index
`i`): each points back at `p` and recursively satisfies the invariant. -/
def compChildrenOk : List Nat → Nat → List NBTTag → Bool
  | _, _, [] => true
  | p, i, c :: rest =>
    (c.parent == Option.some p) && parentsOkTag (p ++ [i]) c && compChildrenOk p (i+1) rest

/-- Invariant for the members of a list payload rooted at path `p`. -/
def listItemsOk : List Nat → Nat → List PyVal → Bool
  | _, _, [] => true
  | p, i, it :: rest => itemParentsOk (p ++ [i]) it && listItemsOk p (i+1) rest

/-- Invariant for one list member at path `q`: a compound member is a bare
children list (parsed payload-only, no enclosing node, so nothing is
required of its elements' own parent fields), but the invariant holds
recursively inside each of them. -/
def itemParentsOk : List Nat → PyVal → Bool
  | q, PyVal.tags cs => orphanChildrenOk q 0 cs
  | q, PyVal.list items => listItemsOk q 0 items
  | _, _ => true

/-- Recursive invariant for the elements of a compound-in-list children
list (no constraint on their own parent fields). -/
def orphanChildrenOk : List Nat → Nat → List NBTTag → Bool
  | _, _, [] => true
  | q, k, c :: rest => parentsOkTag (q ++ [k]) c && orphanChildrenOk q (k+1) rest
end

/-- State of a compound's children as returned by the payload reader,
BEFORE `__parse_tag_content` assigns the parent references: every child
still has `parent = None` and already satisfies the invariant at its own
path. -/
def preChildrenOk : List Nat → Nat → List NBTTag → Bool
  | _, _, [] => true
  | p, i, c :: rest =>
    (c.parent == (Option.none : Option (List Nat))) && parentsOkTag (p ++ [i]) c
      && preChildrenOk p (i+1) rest

/-- Invariant guaranteed for a freshly read payload of kind `tt` at path
`p` (children not yet re-parented for compounds). -/
def payloadInv (p : List Nat) : PyVal → Prop
  | PyVal.tags cs => preChildrenOk p 0 cs = true
  | PyVal.list items => listItemsOk p 0 items = true
  | _ => True

theorem parentsOkTag_setParent (p : List Nat) (v : Option (List Nat)) (c : NBTTag) :
    parentsOkTag p (setParent v c) = parentsOkTag p c := by
  cases c
  rfl

theorem preChildrenOk_map_setParent (p : List Nat) (cs : List NBTTag) :
    ∀ i, preChildrenOk p i cs = true →
      compChildrenOk p i (cs.map (setParent (Option.some p))) = true := by
  induction cs with
  | nil => intro i _; rfl
  | cons c rest ih =>
    intro i h
    simp only [preChildrenOk, Bool.and_eq_true] at h
    simp only [List.map_cons, compChildrenOk, Bool.and_eq_true]
    refine ⟨⟨?_, ?_⟩, ih (i+1) h.2⟩
    · cases c
      simp [setParent, NBTTag.parent]
    · rw [parentsOkTag_setParent]
      exact h.1.2

theorem preChildrenOk_orphan (q : List Nat) (cs : List NBTTag) :
    ∀ k, preChildrenOk q k cs = true → orphanChildrenOk q k cs = true := by
  induction cs with
  | nil => intro k _; rfl
  | cons c rest ih =>
    intro k h
    simp only [preChildrenOk, Bool.and_eq_true] at h
    simp only [orphanChildrenOk, Bool.and_eq_true]
    exact ⟨h.1.2, ih (k+1) h.2⟩

theorem payloadInv_itemParentsOk (q : List Nat) (v : PyVal) (h : payloadInv q v) :
    itemParentsOk q v = true := by
  cases v <;> simp_all [payloadInv, itemParentsOk]
  exact preChildrenOk_orphan q _ 0 h

theorem parentsOkTag_mk_noncompound (tt : TagTypes) (hne : tt ≠ TagTypes.TAG_Compound)
    (name : Option (List Nat)) (pl : PyVal) (pa : Option (List Nat)) (lt : Option TagTypes)
    (p : List Nat) (h : payloadInv p pl) :
    parentsOkTag p (NBTTag.mk tt name pl pa lt) = true := by
  cases tt <;> cases pl <;> simp_all [payloadInv, parentsOkTag]

/-- The combined parent-link invariant of the whole decoder family, by
induction on the fuel. -/
theorem decodeInvAux : ∀ fuel : Nat,
    (∀ p s t r, readTag fuel p s = Option.some (t, r) →
       t.parent = Option.none ∧ parentsOkTag p t = true)
  ∧ (∀ p tt s t r, parseTagContent fuel p tt s = Option.some (t, r) →
       t.parent = Option.none ∧ parentsOkTag p t = true)
  ∧ (∀ p tt s pl lt r, readTagPayload fuel p tt s = Option.some (pl, lt, r) → payloadInv p pl)
  ∧ (∀ p mt i n s items r, readListItems fuel p mt i n s = Option.some (items, r) →
       listItemsOk p i items = true)
  ∧ (∀ p k s cs r, readCompoundChildren fuel p k s = Option.some (cs, r) →
       preChildrenOk p k cs = true) := by
  intro fuel
  induction fuel with
  | zero =>
    refine ⟨?_, ?_, ?_, ?_, ?_⟩
    · intro p s t r h; simp [readTag] at h
    · intro p tt s t r h; simp [parseTagContent] at h
    · intro p tt s pl lt r h; simp [readTagPayload] at h
    · intro p mt i n s items r h; simp [readListItems] at h
    · intro p k s cs r h; simp [readCompoundChildren] at h
  | succ fuel ih =>
    obtain ⟨ihT, ihP, ihPl, ihL, ihC⟩ := ih
    refine ⟨?_, ?_, ?_, ?_, ?_⟩
    · -- readTag
      intro p s t r h
      simp only [readTag] at h
      split at h
      · exact absurd h (by simp)
      · exact ihP p _ _ t r h
    · -- parseTagContent
      intro p tt s t r h
      simp only [parseTagContent] at h
      split at h
      · -- End tag
        obtain ⟨rfl, rfl⟩ : t = NBTTag.mk TagTypes.TAG_End Option.none PyVal.pyNone
            Option.none Option.none ∧ r = s := by
          constructor <;> { injection h with h1; cases h1; rfl }
        exact ⟨rfl, rfl⟩
      · split at h
        · exact absurd h (by simp)
        · rename_i name s1 _
          split at h
          · exact absurd h (by simp)
          · rename_i payload listType s2 heqPl
            have hinv := ihPl p tt s1 payload listType s2 heqPl
            split at h
            · -- compound
              rename_i hcomp
              split at h
              · rename_i cs
                injection h with h1
                injection h1 with h1 h2
                subst h1
                subst hcomp
                refine ⟨rfl, ?_⟩
                simp only [parentsOkTag]
                exact preChildrenOk_map_setParent p cs 0 (by simpa [payloadInv] using hinv)
              · exact absurd h (by simp)
            · rename_i hncomp
              injection h with h1
              injection h1 with h1 h2
              subst h1
              exact ⟨rfl, parentsOkTag_mk_noncompound tt hncomp name payload Option.none _ p hinv⟩
    · -- readTagPayload
      intro p tt s pl lt r h
      simp only [readTagPayload] at h
      split at h
      · exact absurd h (by simp)
      split at h
      · -- integer kinds
        injection h with h1; injection h1 with h1 h2; subst h1; trivial
      split at h
      · -- float
        split at h
        · exact absurd h (by simp)
        · injection h with h1; injection h1 with h1 h2; subst h1; trivial
      split at h
      · -- double
        split at h
        · exact absurd h (by simp)
        · injection h with h1; injection h1 with h1 h2; subst h1; trivial
      split at h
      · -- byte array
        split at h
        · rename_i b
          injection h with h1; injection h1 with h1 h2; subst h1; trivial
        · exact absurd h (by simp)
      split at h
      · -- string
        split at h
        · exact absurd h (by simp)
        · split at h
          · injection h with h1; injection h1 with h1 h2; subst h1; trivial
          · injection h with h1; injection h1 with h1 h2; subst h1; trivial
      split at h
      · -- list kinds
        split at h
        · exact absurd h (by simp)
        · rename_i mt s1 _
          split at h
          · -- End member kind: empty list
            injection h with h1; injection h1 with h1 h2; subst h1
            simp [payloadInv, listItemsOk]
          · split at h
            · exact absurd h (by simp)
            · rename_i items s2 heqI
              injection h with h1; injection h1 with h1 h2; subst h1
              simpa [payloadInv] using ihL p mt 0 _ _ items s2 heqI
      · -- compound
        split at h
        · exact absurd h (by simp)
        · rename_i cs s1 heqC
          injection h with h1; injection h1 with h1 h2; subst h1
          simpa [payloadInv] using ihC p 0 s cs s1 heqC
    · -- readListItems
      intro p mt i n s items r h
      match n, h with
      | 0, h =>
        injection h with h1; injection h1 with h1 h2; subst h1; rfl
      | n+1, h =>
        simp only [readListItems] at h
        split at h
        · exact absurd h (by simp)
        · rename_i v lt0 s1 heqV
          split at h
          · exact absurd h (by simp)
          · rename_i vs s2 heqVs
            injection h with h1; injection h1 with h1 h2; subst h1
            simp only [listItemsOk, Bool.and_eq_true]
            exact ⟨payloadInv_itemParentsOk _ v (ihPl (p ++ [i]) mt s v lt0 s1 heqV),
                   ihL p mt (i+1) n s1 vs s2 heqVs⟩
    · -- readCompoundChildren
      intro p k s cs r h
      simp only [readCompoundChildren] at h
      split at h
      · exact absurd h (by simp)
      · rename_i child s1 heqT
        have hchild := ihT (p ++ [k]) s child s1 heqT
        split at h
        · injection h with h1; injection h1 with h1 h2; subst h1; rfl
        · split at h
          · exact absurd h (by simp)
          · rename_i cs2 s2 heqC
            injection h with h1; injection h1 with h1 h2; subst h1
            simp only [preChildrenOk, Bool.and_eq_true]
            refine ⟨⟨?_, hchild.2⟩, ihC p (k+1) s1 cs2 s2 heqC⟩
            simp [hchild.1]

/-! ## Tree query layer (filter.py, util.py)

The query layer operates on already-parsed trees whose parent links agree
with the tree structure (the invariant established by the parser, see the
C9 development above).  Here Python `str` is modelled as `List Char`, a
node is a `QTag`, and the parent chain of a node is threaded as the list
of its ancestors' names, nearest ancestor first — exactly the data
`_get_full_qualified_name` walks.  Python's insertion-ordered `dict` is an
association list with unique keys (`dictSet` updates in place or appends,
`pop` removes). -/

/-- A Python string for the query layer. -/
abbrev PyStr := List Char

/-- A query-layer view of a tag: name, kind and (for compounds) the
children.  Non-compound payloads are irrelevant to `get_lookup` and reach
`find_tags` only through the node's kind. -/
inductive QTag : Type where
  | mk (name : Option PyStr) (type : TagTypes) (children : List QTag)

def QTag.name : QTag → Option PyStr
  | .mk n _ _ => n

def QTag.type : QTag → TagTypes
  | .mk _ ty _ => ty

def QTag.children : QTag → List QTag
  | .mk _ _ cs => cs

/-- A dict value: the node together with its upward ancestor-name chain
(the data its Python object reference gives access to). -/
structure Entry : Type where
  tag : QTag
  anc : List (Option PyStr)

/-- Python truthiness of an optional string (`None` and `''` are falsy). -/
def truthyStr : Option PyStr → Bool
  | Option.some s => !s.isEmpty
  | Option.none => false

/-- util.py `_get_full_qualified_name`: starting from the node's own name,
prepend `parent.name + '_'` while the parent exists and its name is
truthy (so the walk stops at the root, whose name is conventionally
absent, or at any unnamed ancestor). -/
def getFullQualifiedName : List (Option PyStr) → PyStr → PyStr
  | [], name => name
  | a :: rest, name =>
    match a with
    | Option.some s => if s.isEmpty then name else getFullQualifiedName rest (s ++ '_' :: name)
    | Option.none => name

/-- The fully qualified name of a dict entry (Python
`__get_full_qualified_name(tag)`; entries always hold truthy-named
tags, so `getD []` is never exercised). -/
def entryFqn (e : Entry) : PyStr :=
  getFullQualifiedName e.anc (e.tag.name.getD [])

/-- An insertion-ordered Python dict from names to entries. -/
abbrev QDict := List (PyStr × Entry)

def dictHasKey (d : QDict) (k : PyStr) : Bool := d.any (fun kv => kv.1 == k)

def dictGet (d : QDict) (k : PyStr) : Option Entry :=
  (d.find? (fun kv => kv.1 == k)).map (fun kv => kv.2)

/-- `d[k] = v`: update in place when the key exists, else append. -/
def dictSet (d : QDict) (k : PyStr) (v : Entry) : QDict :=
  if dictHasKey d k then d.map (fun kv => if kv.1 == k then (k, v) else kv)
  else d ++ [(k, v)]

/-- `d.pop(k)`: remove the (unique) binding of `k`. -/
def dictPop (d : QDict) (k : PyStr) : QDict :=
  d.eraseP (fun kv => kv.1 == k)

/-- The merge loop of filter.py `get_lookup`: fold the child's dict into
the accumulated result.  On a key collision with `all_fully_qualified`
the code raises (`none`); otherwise it pops the existing entry and
re-inserts BOTH entries under their fully qualified names. -/
def mergeDict (allFQ : Bool) : QDict → QDict → Option QDict
  | acc, [] => Option.some acc
  | acc, (k, v) :: rest =>
    if dictHasKey acc k then
      if allFQ then Option.none
      else
        match dictGet acc k with
        | Option.none => Option.none
        | Option.some ex =>
          let acc1 := dictPop acc k
          let acc2 := dictSet acc1 (entryFqn ex) ex
          let acc3 := dictSet acc2 (entryFqn v) v
          mergeDict allFQ acc3 rest
    else mergeDict allFQ (dictSet acc k v) rest

/-- The `if name: result[name] = nbt_tag` step of `get_lookup`: the
node's own binding — present only when its name is truthy, under the
fully qualified name when `all_fully_qualified`. -/
def lookupBase (name : Option PyStr) (ty : TagTypes) (children : List QTag)
    (anc : List (Option PyStr)) (allFQ : Bool) : QDict :=
  match name with
  | Option.some s =>
    if s.isEmpty then []
    else
      let key := if allFQ then getFullQualifiedName anc s else s
      [(key, Entry.mk (QTag.mk name ty children) anc)]
  | Option.none => []

mutual
/-- filter.py `get_lookup` (with the helper import resolved to
util.py `_get_full_qualified_name`, see the C10 development): insert the
node itself when its name is truthy (under its fully qualified name when
`all_fully_qualified`), then recursively merge each compound child's
dict.  `anc` is the node's upward ancestor-name chain; general recursion
is fuelled. -/
def get_lookup : Nat → QTag → List (Option PyStr) → Bool → Option QDict
  | 0, _, _, _ => Option.none
  | fuel+1, QTag.mk name ty children, anc, allFQ =>
    if ty = TagTypes.TAG_Compound then
      lookupChildren fuel children (name :: anc) allFQ (lookupBase name ty children anc allFQ)
    else Option.some (lookupBase name ty children anc allFQ)

/-- The `for child in payload` loop of `get_lookup`. -/
def lookupChildren : Nat → List QTag → List (Option PyStr) → Bool → QDict → Option QDict
  | 0, _, _, _, _ => Option.none
  | _+1, [], _, _, acc => Option.some acc
  | fuel+1, c :: rest, anc, allFQ, acc =>
    match get_lookup fuel c anc allFQ with
    | Option.none => Option.none
    | Option.some cd =>
      match mergeDict allFQ acc cd with
      | Option.none => Option.none
      | Option.some acc2 => lookupChildren fuel rest anc allFQ acc2
end

/-- ASCII lower-casing of one character (Python `str.lower`, modelled for
the ASCII range the repository's data uses). -/
def pyLowerChar (c : Char) : Char :=
  if 65 ≤ c.toNat ∧ c.toNat ≤ 90 then Char.ofNat (c.toNat + 32) else c

def pyLower (s : PyStr) : PyStr := s.map pyLowerChar

def lowerIf (ci : Bool) (s : PyStr) : PyStr := if ci then pyLower s else s

/-- Python `needle in hay` on strings: substring containment. -/
def strContainsSub (hay needle : PyStr) : Bool :=
  (List.range (hay.length + 1)).any (fun i => (hay.drop i).take needle.length == needle)

/-- Python `str.split('_')`. -/
def splitSep : PyStr → List PyStr
  | [] => [[]]
  | c :: rest =>
    match splitSep rest with
    | [] => [[c]]
    | h :: t => if c = '_' then [] :: h :: t else (c :: h) :: t

/-- The key-splitting step of `find_tags`: when the (possibly lowered) key
contains the separator, the leaf name is the last segment and the parent
segments are the rest; otherwise the whole key is the leaf and there are
no parent segments. -/
def splitKey (keyName : PyStr) : PyStr × Option (List PyStr) :=
  if keyName.contains '_' then
    let parts := splitSep keyName
    (parts.getLastD [], if parts.length > 1 then Option.some parts.dropLast else Option.none)
  else (keyName, Option.none)

/-- The name filter of `find_tags`: `name_like` is truthy and a substring
of the leaf name (both lowered when case-insensitive). -/
def condName (nl : Option PyStr) (ci : Bool) (leaf : PyStr) : Bool :=
  truthyStr nl && strContainsSub leaf (lowerIf ci (nl.getD []))

/-- The parents filter of `find_tags`: `parents_like` is truthy, parent
segments exist (a truthy list) and `parents_like` is a MEMBER of the
segment list (Python `in` on a list is membership, not substring). -/
def condParents (pl : Option PyStr) (ci : Bool) (parents : Option (List PyStr)) : Bool :=
  truthyStr pl &&
    (match parents with
     | Option.some ps => !ps.isEmpty && ps.contains (lowerIf ci (pl.getD []))
     | Option.none => false)

/-- The type filter of `find_tags`: `types` is truthy and contains the
node's kind. -/
def condTypes (tys : Option (List TagTypes)) (e : Entry) : Bool :=
  (match tys with
   | Option.some l => !l.isEmpty
   | Option.none => false) && (tys.getD []).contains e.tag.type

/-- The entry loop of filter.py `find_tags`: on the FIRST filter that
matches, append the entry and `continue` to the next entry.  (The source
lowers `name_like`/`parents_like` in place on first use; lowering is
idempotent, so lowering at each use is equivalent.) -/
def findTagsLoop (nl pl : Option PyStr) (tys : Option (List TagTypes)) (ci : Bool) :
    List (PyStr × Entry) → List Entry
  | [] => []
  | (k, v) :: rest =>
    let kp := splitKey (lowerIf ci k)
    if condName nl ci kp.1 then v :: findTagsLoop nl pl tys ci rest
    else if condParents pl ci kp.2 then v :: findTagsLoop nl pl tys ci rest
    else if condTypes tys v then v :: findTagsLoop nl pl tys ci rest
    else findTagsLoop nl pl tys ci rest

/-- filter.py `find_tags`: build the fully-qualified lookup, then filter
its entries. -/
def find_tags (fuel : Nat) (t : QTag) (anc : List (Option PyStr)) (nl pl : Option PyStr)
    (tys : Option (List TagTypes)) (ci : Bool) : Option (List Entry) :=
  (get_lookup fuel t anc true).map (findTagsLoop nl pl tys ci)

/-- Modelled from the spec's words (refinement target for C8): an entry is
included exactly when ANY supplied filter matches — the disjunction of
the three filter predicates — keeping dict order. -/
def findTagsSpecOr (nl pl : Option PyStr) (tys : Option (List TagTypes)) (ci : Bool)
    (entries : List (PyStr × Entry)) : List Entry :=
  (entries.filter (fun kv =>
    let kp := splitKey (lowerIf ci kv.1)
    condName nl ci kp.1 || condParents pl ci kp.2 || condTypes tys kv.2)).map
      (fun kv => kv.2)

/-- Every value in a lookup dict is a truthy-named node ("unnamed nodes
never appear in the mapping"). -/
def EntriesNamed (d : QDict) : Prop :=
  ∀ kv ∈ d, truthyStr kv.2.tag.name = true

theorem dictSet_mem {d : QDict} {k : PyStr} {v : Entry} {kv : PyStr × Entry}
    (h : kv ∈ dictSet d k v) : kv ∈ d ∨ kv = (k, v) := by
  unfold dictSet at h
  split at h
  · obtain ⟨a, ha, heq⟩ := List.mem_map.mp h
    by_cases hb : a.1 == k
    · simp only [hb, if_pos] at heq
      right; exact heq.symm
    · simp only [hb, Bool.false_eq_true, if_neg, not_false_iff] at heq
      left; exact heq ▸ ha
  · rcases List.mem_append.mp h with h1 | h1
    · left; exact h1
    · right; simpa using h1

theorem dictPop_mem {d : QDict} {k : PyStr} {kv : PyStr × Entry}
    (h : kv ∈ dictPop d k) : kv ∈ d :=
  (List.eraseP_sublist d).subset h

theorem dictGet_mem {d : QDict} {k : PyStr} {e : Entry}
    (h : dictGet d k = Option.some e) : ∃ k2, (k2, e) ∈ d := by
  unfold dictGet at h
  cases hf : d.find? (fun kv => kv.1 == k) with
  | none => simp [hf] at h
  | some kv =>
    simp only [hf, Option.map_some] at h
    obtain ⟨k2, e2⟩ := kv
    injection h with h1
    exact ⟨k2, h1 ▸ List.mem_of_find?_eq_some hf⟩

theorem mergeDict_named : ∀ (cd acc : QDict) (fq : Bool) (out : QDict),
    EntriesNamed acc → EntriesNamed cd → mergeDict fq acc cd = Option.some out →
    EntriesNamed out := by
  intro cd
  induction cd with
  | nil =>
    intro acc fq out ha _ h
    simp only [mergeDict] at h
    injection h with h1
    exact h1 ▸ ha
  | cons kv rest ih =>
    intro acc fq out ha hc h
    obtain ⟨k, v⟩ := kv
    simp only [mergeDict] at h
    split at h
    · split at h
      · exact absurd h (by simp)
      · split at h
        · exact absurd h (by simp)
        · rename_i ex hex
          refine ih _ fq out ?_ (fun kv2 hkv2 => hc kv2 (by simp [hkv2])) h
          intro kv2 hkv2
          rcases dictSet_mem hkv2 with h2 | h2
          · rcases dictSet_mem h2 with h3 | h3
            · exact ha _ (dictPop_mem h3)
            · obtain ⟨k2, hk2⟩ := dictGet_mem hex
              subst h3
              simpa using ha _ hk2
          · subst h2
            simpa using hc (k, v) (by simp)
    · refine ih _ fq out ?_ (fun kv2 hkv2 => hc kv2 (by simp [hkv2])) h
      intro kv2 hkv2
      rcases dictSet_mem hkv2 with h2 | h2
      · exact ha _ h2
      · subst h2
        simpa using hc (k, v) (by simp)

theorem lookupBase_named (name : Option PyStr) (ty : TagTypes) (children : List QTag)
    (anc : List (Option PyStr)) (fq : Bool) :
    EntriesNamed (lookupBase name ty children anc fq) := by
  intro kv hkv
  unfold lookupBase at hkv
  cases name with
  | none => simp at hkv
  | some s =>
    by_cases hs : s.isEmpty <;> simp only [hs, if_pos, if_neg, Bool.false_eq_true,
      not_false_iff] at hkv
    · simp at hkv
    · simp only [List.mem_singleton] at hkv
      subst hkv
      simp [truthyStr, QTag.name, Entry.mk, hs]

/-- Entries of a `get_lookup` dict are always truthy-named, for both
lookup modes (the combined statement for the mutual recursion, by fuel
induction). -/
theorem getLookupNamedAux : ∀ fuel : Nat,
    (∀ t anc fq d, get_lookup fuel t anc fq = Option.some d → EntriesNamed d)
  ∧ (∀ cs anc fq acc d, EntriesNamed acc →
      lookupChildren fuel cs anc fq acc = Option.some d → EntriesNamed d) := by
  intro fuel
  induction fuel with
  | zero =>
    constructor
    · intro t anc fq d h; simp [get_lookup] at h
    · intro cs anc fq acc d _ h; simp [lookupChildren] at h
  | succ fuel ih =>
    obtain ⟨ihG, ihC⟩ := ih
    constructor
    · intro t anc fq d h
      obtain ⟨name, ty, children⟩ := t
      simp only [get_lookup] at h
      split at h
      · exact ihC children (name :: anc) fq _ d (lookupBase_named name ty children anc fq) h
      · injection h with h1
        exact h1 ▸ lookupBase_named name ty children anc fq
    · intro cs anc fq acc d hacc h
      match cs, h with
      | [], h =>
        simp only [lookupChildren] at h
        injection h with h1
        exact h1 ▸ hacc
      | c :: rest, h =>
        simp only [lookupChildren] at h
        split at h
        · exact absurd h (by simp)
        · rename_i cd heqG
          split at h
          · exact absurd h (by simp)
          · rename_i acc2 heqM
            exact ihC rest anc fq acc2 d
              (mergeDict_named cd acc fq acc2 hacc (ihG c anc fq cd heqG) heqM) h

/-- The filter loop of `find_tags` is extensionally the OR-filter the spec
describes: an entry is kept exactly when the disjunction of the three
filter conditions holds. -/
theorem findTagsLoop_eq_specOr (nl pl : Option PyStr) (tys : Option (List TagTypes)) (ci : Bool) :
    ∀ entries, findTagsLoop nl pl tys ci entries = findTagsSpecOr nl pl tys ci entries := by
  intro entries
  induction entries with
  | nil => rfl
  | cons kv rest ih =>
    obtain ⟨k, v⟩ := kv
    rcases h1 : condName nl ci (splitKey (lowerIf ci k)).1 with _ | _ <;>
    rcases h2 : condParents pl ci (splitKey (lowerIf ci k)).2 with _ | _ <;>
    rcases h3 : condTypes tys v with _ | _ <;>
    simp [findTagsLoop, findTagsSpecOr, List.filter_cons, h1, h2, h3, ih]

/-! ## Module-level name resolution (filter.py line 2 vs util.py)

src/nbt_py/util.py binds at module level its two `import` targets
(`Dict`, `Any` from typing; `NBTTag`, `TagTypes`,
`FULLY_QUALIFIED_SEPARATOR` from nbt_py.core) and its three function
definitions.  src/nbt_py/filter.py line 2 executes
`from nbt_py.util import __get_full_qualified_name` at module level
(outside any class body, so Python name mangling does not apply); that
statement succeeds only if the requested name is bound in util's module
namespace. -/

/-- The names bound in the module namespace of src/nbt_py/util.py. -/
def utilModuleNames : List String :=
  ["Dict", "Any", "NBTTag", "TagTypes", "FULLY_QUALIFIED_SEPARATOR",
   "is_gzipped", "nbt_to_dict", "_get_full_qualified_name"]

/-- The helper name src/nbt_py/filter.py imports from nbt_py.util and then
calls inside `get_lookup` and (via `get_lookup`) `find_tags`. -/
def filterImportedHelper : String := "__get_full_qualified_name"

/-- The helper util.py actually defines (one leading underscore). -/
def utilDefinedHelper : String := "_get_full_qualified_name"

/-! ## Concrete example data for the claims -/

/-- Number of children of a compound node. -/
def compoundChildCount (t : NBTTag) : Nat :=
  match t.payload with
  | PyVal.tags cs => cs.length
  | _ => 0

/-- A well-formed input: root compound (no name) containing an empty
compound named `A` and then a byte tag named `B` with value 7; compounds
are terminated by single End bytes, as the decoder expects. -/
def c1Input : Stream := [10, 0, 0, 10, 0, 1, 65, 0, 1, 0, 1, 66, 7, 0]

/-- The decoded child `A` (empty compound, parent = root path). -/
def c1ChildA : NBTTag :=
  NBTTag.mk TagTypes.TAG_Compound (Option.some [65]) (PyVal.tags []) (Option.some [])
    Option.none

/-- The decoded child `B` (byte 7, parent = root path). -/
def c1ChildB : NBTTag :=
  NBTTag.mk TagTypes.TAG_Byte (Option.some [66]) (PyVal.int 7) (Option.some []) Option.none

/-- The tree `decode(c1Input)` produces. -/
def c1Tree : NBTTag :=
  NBTTag.mk TagTypes.TAG_Compound Option.none (PyVal.tags [c1ChildA, c1ChildB]) Option.none
    Option.none

/-- What the encoder emits for `c1Tree`: every compound terminator is the
THREE bytes `00 00 00` (End kind byte plus a 2-byte zero name length,
because `_write_tag` always writes a name field). -/
def c1Out : Stream := [10, 0, 0, 10, 0, 1, 65, 0, 0, 0, 1, 0, 1, 66, 7, 0, 0, 0]

/-- What decoding `c1Out` produces: the root's child loop consumes `A`,
then reads the second `00` of `A`'s fat terminator as the root's own
End, so child `B` is dropped. -/
def c1TreeBad : NBTTag :=
  NBTTag.mk TagTypes.TAG_Compound Option.none (PyVal.tags [c1ChildA]) Option.none Option.none

/-- A compound with zero children. -/
def c2Empty : NBTTag :=
  NBTTag.mk TagTypes.TAG_Compound Option.none (PyVal.tags []) Option.none Option.none

/-- A compound with two byte children `A` = 5 and `B` = 6. -/
def c2Two : NBTTag :=
  NBTTag.mk TagTypes.TAG_Compound Option.none
    (PyVal.tags
      [NBTTag.mk TagTypes.TAG_Byte (Option.some [65]) (PyVal.int 5) Option.none Option.none,
       NBTTag.mk TagTypes.TAG_Byte (Option.some [66]) (PyVal.int 6) Option.none Option.none])
    Option.none Option.none

/-- A List tag with `list_type` absent and an empty payload. -/
def c4EmptyList : NBTTag :=
  NBTTag.mk TagTypes.TAG_List Option.none (PyVal.list []) Option.none Option.none

/-- Query-layer byte leaf named `x`. -/
def c7X : QTag := QTag.mk (Option.some ['x']) TagTypes.TAG_Byte []

/-- Sibling compounds named `A`, `B`, `C`, each containing an `x` leaf. -/
def c7A : QTag := QTag.mk (Option.some ['A']) TagTypes.TAG_Compound [c7X]

def c7B : QTag := QTag.mk (Option.some ['B']) TagTypes.TAG_Compound [c7X]

def c7C : QTag := QTag.mk (Option.some ['C']) TagTypes.TAG_Compound [c7X]

/-- Unnamed root with the two colliding siblings of the spec's example. -/
def c7Root2 : QTag := QTag.mk Option.none TagTypes.TAG_Compound [c7A, c7B]

/-- Unnamed root with THREE siblings whose leaves share the short name. -/
def c7Root3 : QTag := QTag.mk Option.none TagTypes.TAG_Compound [c7A, c7B, c7C]

/-- The lookup the code builds for `c7Root2`. -/
def c7Dict2 : QDict :=
  [(['A'], Entry.mk c7A [Option.none]),
   (['B'], Entry.mk c7B [Option.none]),
   (['A', '_', 'x'], Entry.mk c7X [Option.some ['A'], Option.none]),
   (['B', '_', 'x'], Entry.mk c7X [Option.some ['B'], Option.none])]

/-- The lookup the code builds for `c7Root3`: after the A/B collision
renamed both to `A_x`/`B_x`, the short key `x` is free again, so `C`'s
leaf lands under the PLAIN short name instead of `C_x`. -/
def c7Dict3 : QDict :=
  [(['A'], Entry.mk c7A [Option.none]),
   (['B'], Entry.mk c7B [Option.none]),
   (['A', '_', 'x'], Entry.mk c7X [Option.some ['A'], Option.none]),
   (['B', '_', 'x'], Entry.mk c7X [Option.some ['B'], Option.none]),
   (['C'], Entry.mk c7C [Option.none]),
   (['x'], Entry.mk c7X [Option.some ['C'], Option.none])]

/-- A byte tag named `raining` under an unnamed root. -/
def c8Rain : QTag := QTag.mk (Option.some ['r', 'a', 'i', 'n', 'i', 'n', 'g']) TagTypes.TAG_Byte []

def c8RainRoot : QTag := QTag.mk Option.none TagTypes.TAG_Compound [c8Rain]

/-- A well-formed input for the C9 witness: root compound with one byte
child named `A`. -/
def c9Input : Stream := [10, 0, 0, 1, 0, 1, 65, 5, 0]

/-- The tree decoded from `c9Input`. -/
def c9Tree : NBTTag :=
  NBTTag.mk TagTypes.TAG_Compound Option.none
    (PyVal.tags
      [NBTTag.mk TagTypes.TAG_Byte (Option.some [65]) (PyVal.int 5) (Option.some [])
        Option.none])
    Option.none Option.none

/-! ## The claims -/

/-- C1.  The claimed decode/encode round-trip FAILS on the code: for the
well-formed input `c1Input` (root compound containing an empty compound
`A` and then byte `B`), decoding succeeds, but re-encoding the decoded
tree produces `c1Out ≠ c1Input` (fat 3-byte compound terminators), and
decoding `c1Out` yields a tree with ONE root child instead of two (`B` is
lost), with 9 bytes left unconsumed. -/
theorem c1_roundtrip_code_bug :
    readTag 12 [] c1Input = Option.some (c1Tree, []) ∧
    writeTag 12 c1Tree = Option.some c1Out ∧
    c1Out ≠ c1Input ∧
    readTag 12 [] c1Out = Option.some (c1TreeBad, [0, 1, 0, 1, 66, 7, 0, 0, 0]) ∧
    compoundChildCount c1Tree = 2 ∧
    compoundChildCount c1TreeBad = 1 :=
  ⟨rfl, rfl, by decide, rfl, rfl, rfl⟩

/-- C2.  The encoder terminates a compound with THREE bytes `00 00 00`
(`_write_tag` of an End tag always writes the 2-byte zero name length),
not with the single byte `0x00` the claim states: an empty compound's
payload encodes as `[0, 0, 0]`, and a two-child compound's payload is the
two full child tags in stored order followed by `[0, 0, 0]`.  The decode
half of the claim is accurate: the single byte `0x00` after a compound
header yields zero children. -/
theorem c2_compound_terminator_code_bug :
    writeTagPayload 5 c2Empty = Option.some [0, 0, 0] ∧
    writeTagPayload 5 c2Two =
      Option.some [1, 0, 1, 65, 5, 1, 0, 1, 66, 6, 0, 0, 0] ∧
    readTagPayload 5 [] TagTypes.TAG_Compound [0] =
      Option.some (PyVal.tags [], Option.none, []) :=
  ⟨rfl, rfl, rfl⟩

/-- C3.  The ByteArray reader is `data, = file.read(size)` — a tuple
unpacking that raises unless exactly one byte results: decoding a
ByteArray of length 2 (or 0) fails, and only length 1 succeeds, yielding
a single int payload rather than a byte sequence. -/
theorem c3_byte_array_code_bug :
    readTag 9 [] [7, 0, 0, 0, 0, 0, 2, 65, 66] = Option.none ∧
    readTag 9 [] [7, 0, 0, 0, 0, 0, 0] = Option.none ∧
    readTag 9 [] [7, 0, 0, 0, 0, 0, 1, 65] =
      Option.some (NBTTag.mk TagTypes.TAG_Byte_Array Option.none (PyVal.int 65)
        Option.none Option.none, []) :=
  ⟨rfl, rfl, rfl⟩

/-- C4.  Encoding a List with absent `list_type` writes ONLY the End
member-kind byte `[0]` — no 4-byte count — although the decoder always
reads a count after the member-kind byte (so the claimed payload
`[0, 0, 0, 0, 0]` is what the decoder consumes, and decoding it does
yield an empty list with absent element kind, but the encoder never
produces it); the full encoded tag is just `[9, 0, 0, 0]`. -/
theorem c4_empty_list_code_bug :
    writeTagPayload 5 c4EmptyList = Option.some [0] ∧
    writeTag 5 c4EmptyList = Option.some [9, 0, 0, 0] ∧
    readTagPayload 5 [] TagTypes.TAG_List [0, 0, 0, 0, 0] =
      Option.some (PyVal.list [], Option.none, []) :=
  ⟨rfl, rfl, rfl⟩

/-- C5 counterexample.  A stream cut off mid-Int-payload (2 of 4 bytes)
does NOT make the decoder fail: it returns an Int tag whose value is
built from the short read, contradicting the claim that such inputs
raise `UnexpectedEof` and never return a value. -/
theorem c5_truncated_counterexample :
    readTag 3 [] [3, 0, 0, 0, 7] =
      Option.some (NBTTag.mk TagTypes.TAG_Int Option.none (PyVal.int 7)
        Option.none Option.none, []) :=
  rfl

/-- C5 amended.  When the stream ends before a fixed-width integer field
is complete, the decoder does not fail: `file.read` returns the bytes
that are available and `int.from_bytes` converts them, so an Int tag
whose payload has fewer than 4 bytes left decodes to the signed value of
exactly those bytes, consuming the whole stream. -/
theorem c5_truncated_amended (pb : List Nat) (h : pb.length < 4) :
    readTag 3 [] ([3, 0, 0] ++ pb) =
      Option.some (NBTTag.mk TagTypes.TAG_Int Option.none
        (PyVal.int (intFromBytesSigned pb)) Option.none Option.none, []) := by
  have ht : pb.take 4 = pb := List.take_of_length_le (Nat.le_of_lt h)
  have hd : pb.drop 4 = [] := List.drop_eq_nil_of_le (Nat.le_of_lt h)
  simp [readTag, parseTagContent, readTagPayload, readNbtString, readNbtInt, TagTypes.ofInt,
    intFromBytesSigned, bytesToNat, ht, hd, isIntegerType, TAG_TYPE_BYTE_LENGTHS]

/-- Witness for C5 amended at the concrete short payload `[0, 7]`. -/
theorem c5_truncated_amended_witness :
    ([0, 7] : List Nat).length < 4 ∧
    readTag 3 [] ([3, 0, 0] ++ [0, 7]) =
      Option.some (NBTTag.mk TagTypes.TAG_Int Option.none
        (PyVal.int (intFromBytesSigned [0, 7])) Option.none Option.none, []) :=
  ⟨by decide, c5_truncated_amended [0, 7] (by decide)⟩

/-- C6 counterexample.  A top-level decode of a stream whose first byte is
the End ordinal 0 does NOT fail: `_read_tag` returns an End-kind tag
node (no name, no payload), contradicting the claimed
`UnexpectedEndTag` error. -/
theorem c6_end_counterexample :
    readTag 5 [] [0] =
      Option.some (NBTTag.mk TagTypes.TAG_End Option.none PyVal.pyNone
        Option.none Option.none, []) :=
  rfl

/-- C6 amended.  For EVERY stream starting with the End ordinal, the
top-level decode returns an End-kind tag node carrying no name and no
payload and consumes exactly the kind byte; the `ValueError` branch for
End lives only in the payload reader, which a top-level End never
reaches. -/
theorem c6_end_amended (fuel : Nat) (s : Stream) :
    readTag (fuel + 2) [] (0 :: s) =
      Option.some (NBTTag.mk TagTypes.TAG_End Option.none PyVal.pyNone
        Option.none Option.none, s) :=
  rfl

/-- C7 counterexample.  With THREE sibling compounds `A{x}`, `B{x}`,
`C{x}` under the root, the nodes `A.x` and `C.x` share the short name
`x`, yet the result keeps a PLAIN key `x` (bound to `C`'s leaf) and
contains no `C_x` key — the A/B collision removed the short key, so
`C`'s leaf no longer collides and is inserted short, contradicting the
claim that both members of every short-name collision end up under their
fully qualified names with the short key removed. -/
theorem c7_lookup_counterexample :
    get_lookup 10 c7Root3 [] false = Option.some c7Dict3 ∧
    dictHasKey c7Dict3 ['x'] = true ∧
    dictHasKey c7Dict3 ['C', '_', 'x'] = false :=
  ⟨rfl, rfl, rfl⟩

/-- C7 amended.  The renaming is per collision at merge time: when a
child's key equals an existing key (with `all_fully_qualified = False`),
the existing entry and the new entry are reinserted under their fully
qualified names and the short key is removed at that point, but a LATER
node with the same short name is inserted under the plain short key
again.  For the spec's two-sibling example `A{x}`, `B{x}` the result is
exactly `A, B, A_x, B_x` with no plain `x` key; with a third sibling
`C{x}` the result additionally holds `C` and a plain `x` bound to `C`'s
leaf.  Unnamed nodes never appear in the mapping (in either lookup
mode). -/
theorem c7_lookup_amended :
    get_lookup 10 c7Root2 [] false = Option.some c7Dict2 ∧
    dictHasKey c7Dict2 ['x'] = false ∧
    get_lookup 10 c7Root3 [] false = Option.some c7Dict3 ∧
    (∀ fuel t anc fq d, get_lookup fuel t anc fq = Option.some d → EntriesNamed d) :=
  ⟨rfl, rfl, rfl, fun fuel t anc fq d h => (getLookupNamedAux fuel).1 t anc fq d h⟩

/-- Witness for C7 amended: applying the unnamed-nodes part to the
one-node tree `A` (whose lookup is computed by `rfl`) and its single
entry. -/
theorem c7_lookup_amended_witness :
    truthyStr (Entry.mk (QTag.mk (Option.some ['A']) TagTypes.TAG_Byte []) []).tag.name
      = true :=
  c7_lookup_amended.2.2.2 1 (QTag.mk (Option.some ['A']) TagTypes.TAG_Byte []) [] false
    [(['A'], Entry.mk (QTag.mk (Option.some ['A']) TagTypes.TAG_Byte []) [])] rfl
    (['A'], Entry.mk (QTag.mk (Option.some ['A']) TagTypes.TAG_Byte []) []) (by simp)

/-- C8.  `find_tags` has first-match OR semantics: the sequential
first-filter-wins loop is extensionally the filter by the DISJUNCTION of
the three conditions (name substring on the leaf, membership in the
parent segments, kind membership), entries matching no supplied filter
are excluded, and with `case_insensitive` both sides are lowered — in
particular `find_tags` with `name_like = "rain"` over a tree containing
a tag named `raining` returns that tag. -/
theorem c8_find_tags_or_semantics :
    (∀ nl pl tys ci entries,
      findTagsLoop nl pl tys ci entries = findTagsSpecOr nl pl tys ci entries) ∧
    find_tags 10 c8RainRoot [] (Option.some ['r', 'a', 'i', 'n']) Option.none Option.none true
      = Option.some [Entry.mk c8Rain [Option.none]] :=
  ⟨fun nl pl tys ci entries => findTagsLoop_eq_specOr nl pl tys ci entries, rfl⟩

/-- C9.  Every tree returned by a successful top-level decode satisfies
the parent-link invariant: the root's parent is `None`, and every child
of every Compound node (at every depth, including compounds nested in
list payloads) has `parent` pointing to that Compound — established at
parse time by `__parse_tag_content`. -/
theorem c9_parent_links (fuel : Nat) (s : Stream) (t : NBTTag) (r : Stream)
    (h : readTag fuel [] s = Option.some (t, r)) :
    t.parent = Option.none ∧ parentsOkTag [] t = true :=
  (decodeInvAux fuel).1 [] s t r h

/-- Witness for C9 at the concrete input `c9Input`. -/
theorem c9_parent_links_witness :
    c9Tree.parent = Option.none ∧ parentsOkTag [] c9Tree = true :=
  c9_parent_links 10 c9Input c9Tree [] rfl

/-- C10.  filter.py imports `__get_full_qualified_name` from nbt_py.util,
but that name is not among the names util.py binds; util defines only
the single-underscore `_get_full_qualified_name`, a different name — so
the module-level import cannot resolve and the query layer fails before
any lookup semantics apply. -/
theorem c10_filter_import_mismatch :
    filterImportedHelper ∉ utilModuleNames ∧
    utilDefinedHelper ∈ utilModuleNames ∧
    filterImportedHelper ≠ utilDefinedHelper :=
  ⟨by decide, by decide, by decide⟩

end NbtPy
